import Mathlib

/-!
# go-github: the users and search services

A shallow embedding of `github/users.go` and `github/search.go`.

* Go strings are byte sequences (`GoString`).
* A Go pointer that may be nil is an `Option`; a Go `error` that may be nil is an
  `Option Error`.
* `Client.NewRequest` and `Client.Do` are declared outside the files embedded here, so a
  `Client` carries them as fields.  Every operation calls each of them at most once, so a
  `Client` value stands for the client together with the state of the remote end at the
  moment of the call.
* Every operation returns, next to its Go results, the calls it made on the client, in
  order (`Traced.calls`).
* A nil-pointer dereference is the result `Except.error GoPanic.nilPointerDereference`.
* The JSON encoding of `User` is kept at the level of JSON objects, as the tags of its
  fields give it (`User.Marshal`, `User.Unmarshal`).
-/

namespace GoGithub

/-! ## Go strings -/

/-- One byte of a Go string. -/
abbrev Byte := Fin 256

/-- Go `string`: an immutable sequence of bytes. -/
abbrev GoString := List Byte

/-- The bytes of an ASCII string literal of the source. -/
def lit (s : String) : GoString := s.toList.map (fun c => Fin.ofNat c.toNat)

/-! ## Data model -/

/-- Go `*time.Location`, as a `Time` carries it: UTC (the nil pointer), the machine's
`time.Local`, or any other location, by its name and the offset in seconds east of UTC it
has at the instant of the time (`time.FixedZone name offset`, or a zone of the time-zone
database). -/
inductive Location where
  | utc
  | local
  | fixed (name : GoString) (offset : Int)
  deriving DecidableEq, Repr

/-- Go `time.Time`: the instant, in nanoseconds since the Unix epoch, the reading of the
monotonic clock when the time carries one, and the location. -/
structure Time where
  unixNano : Int
  monotonic : Option Int := none
  loc : Location := .utc
  deriving DecidableEq, Repr

/-- Record `User` of `users.go`: every field is a pointer, absent when nil. -/
structure User where
  Login : Option GoString := none
  ID : Option Int := none
  URL : Option GoString := none
  AvatarURL : Option GoString := none
  GravatarID : Option GoString := none
  Name : Option GoString := none
  Company : Option GoString := none
  Blog : Option GoString := none
  Location : Option GoString := none
  Email : Option GoString := none
  Hireable : Option Bool := none
  PublicRepos : Option Int := none
  Followers : Option Int := none
  Following : Option Int := none
  CreatedAt : Option Time := none
  deriving DecidableEq, Repr

/-- Record `FollowingUser` of `users.go`: an embedded `User` and plain string fields
(`Type_` is the Go field `Type`). -/
structure FollowingUser where
  User : User := {}
  Type_ : GoString := []
  FollowersURL : GoString := []
  FollowingURL : GoString := []
  GistsURL : GoString := []
  StarredURL : GoString := []
  SubscriptionsURL : GoString := []
  OrganizationsURL : GoString := []
  ReposURL : GoString := []
  EventsURL : GoString := []
  ReceivedEventsURL : GoString := []
  deriving DecidableEq, Repr

/-- Record `UserListOptions` of `users.go`. -/
structure UserListOptions where
  Since : Int
  deriving DecidableEq, Repr

/-- Record `SearchOptions` of `search.go` (`Sort_` is the Go field `Sort`). -/
structure SearchOptions where
  Sort_ : GoString := []
  Order : GoString := []
  Page : Int := 0
  PerPage : Int := 0
  deriving DecidableEq, Repr

/-- Modelled from the spec: `Repository` is declared outside the embedded files; a search
result item is "a typed item", of which the tests of `search.go` use the field `ID`. -/
structure Repository where
  ID : Option Int := none
  deriving DecidableEq, Repr

/-- Modelled from the spec: `Issue` is declared outside the embedded files; the tests of
`search.go` use its field `Number`. -/
structure Issue where
  Number : Option Int := none
  deriving DecidableEq, Repr

/-- Record `RepositoriesSearchResult` of `search.go`. -/
structure RepositoriesSearchResult where
  Total : Option Int := none
  Repositories : List Repository := []
  deriving DecidableEq, Repr

/-- Record `IssuesSearchResult` of `search.go`. -/
structure IssuesSearchResult where
  Total : Option Int := none
  Issues : List Issue := []
  deriving DecidableEq, Repr

/-- Record `UsersSearchResult` of `search.go`. -/
structure UsersSearchResult where
  Total : Option Int := none
  Users : List User := []
  deriving DecidableEq, Repr

/-- Record `CodeResult` of `search.go`. -/
structure CodeResult where
  Name : Option GoString := none
  Path : Option GoString := none
  SHA : Option GoString := none
  HTMLURL : Option GoString := none
  Repository : Option Repository := none
  deriving DecidableEq, Repr

/-- Record `CodeSearchResult` of `search.go`. -/
structure CodeSearchResult where
  Total : Option Int := none
  CodeResults : List CodeResult := []
  deriving DecidableEq, Repr

/-! ## The client: request builder and transport -/

/-- A Go `error` value, by kind: a `*url.Error`, an API error for a non-2xx status, or any
other error (connection, timeout, decoding). -/
inductive Error where
  | urlError (op : GoString) (url : GoString) (msg : GoString)
  | errorResponse (status : Int) (msg : GoString)
  | other (msg : GoString)
  deriving DecidableEq, Repr

/-- What a Go run-time panic leaves of a call. -/
inductive GoPanic where
  | nilPointerDereference
  deriving DecidableEq, Repr

/-- The `body` argument of `NewRequest`: the only body the embedded files pass is a `*User`. -/
inductive Body where
  | user (u : User)
  deriving DecidableEq, Repr

/-- Go `url.Values` and `http.Header`: a map from a key to the list of its values, kept as
an association list with one entry per key. -/
abbrev Values := List (GoString × List GoString)

/-- The request object `NewRequest` hands back (`*http.Request`). -/
structure Request where
  Method : GoString
  URL : GoString
  Header : Values := []
  Body : Option Body := none
  deriving DecidableEq, Repr

/-- The response object of the transport (`*Response`); the embedded files read only its
status code. -/
structure Response where
  StatusCode : Int
  deriving DecidableEq, Repr

/-- The decode destinations the embedded files hand to `Client.Do`. -/
inductive DestKind where
  | none
  | user
  | users
  | followingUsers
  | repositoriesSearch
  | issuesSearch
  | usersSearch
  | codeSearch
  deriving DecidableEq, Repr

/-- The Go type a destination points to (`Unit` for the nil destination). -/
def DestKind.Target : DestKind → Type
  | .none => Unit
  | .user => User
  | .users => List User
  | .followingUsers => List FollowingUser
  | .repositoriesSearch => RepositoriesSearchResult
  | .issuesSearch => IssuesSearchResult
  | .usersSearch => UsersSearchResult
  | .codeSearch => CodeSearchResult

/-- What one call of `Client.Do` leaves: the response pointer, the error, and the content of
the destination after the call. -/
structure DoResult (α : Type) where
  resp : Option Response
  err : Option Error
  dest : α

/-- The two methods of `*Client` the services call.  `NewRequest method urlStr body` builds a
request or fails; `Do req v` sends it and may write to the destination `v`. -/
structure Client where
  NewRequest : GoString → GoString → Option Body → Except Error Request
  Do : Request → (k : DestKind) → k.Target → DoResult k.Target

/-- One call made on the client. -/
inductive Call where
  | newRequest (method : GoString) (urlStr : GoString) (body : Option Body)
  | doRequest (req : Request)
  deriving DecidableEq, Repr

/-- A result together with the calls made on the client while computing it. -/
structure Traced (α : Type) where
  calls : List Call
  ret : α

/-- The requests handed to the transport, in order. -/
def sent : List Call → List Request
  | [] => []
  | .doRequest req :: rest => req :: sent rest
  | .newRequest _ _ _ :: rest => sent rest

/-- The arguments of the request-builder calls, in order. -/
def built : List Call → List (GoString × GoString × Option Body)
  | [] => []
  | .newRequest m u b :: rest => (m, u, b) :: built rest
  | .doRequest _ :: rest => built rest

/-! ## Go standard library: `strconv.Itoa` and `net/url`

The functions of the Go standard library that `users.go` and `search.go` call to build a
query string (`strconv.Itoa`, `url.Values.Add`, `url.Values.Encode`), and the ones a server
reads it back with (`url.ParseQuery`, `url.QueryUnescape`). -/

/-- Loop of `strconv.formatBits` in base 10: the digits of `n`, most significant first,
pushed in front of `acc`.  The first argument bounds the number of digits. -/
def formatDigits : Nat → Nat → GoString → GoString
  | 0, _, acc => acc
  | fuel + 1, n, acc =>
    if n < 10 then Fin.ofNat (48 + n) :: acc
    else formatDigits fuel (n / 10) (Fin.ofNat (48 + n % 10) :: acc)

/-- Go `strconv.Itoa`: the decimal rendering of an `int`, with a leading `-` when negative. -/
def Itoa (i : Int) : GoString :=
  if i < 0 then 45 :: formatDigits (i.natAbs + 1) i.natAbs []
  else formatDigits (i.natAbs + 1) i.natAbs []

/-- Go `url.shouldEscape c encodeQueryComponent`: only the unreserved bytes (letters,
digits, `-`, `_`, `.`, `~`) are left as they are. -/
def shouldEscape (c : Byte) : Bool :=
  if (65 ≤ c ∧ c ≤ 90) ∨ (97 ≤ c ∧ c ≤ 122) ∨ (48 ≤ c ∧ c ≤ 57) then false
  else if c = 45 ∨ c = 95 ∨ c = 46 ∨ c = 126 then false
  else true

/-- The byte `"0123456789ABCDEF"[n]` for `n < 16`. -/
def hexDigit (n : Byte) : Byte := if n < 10 then 48 + n else 55 + n

/-- What `url.escape s encodeQueryComponent` writes for one byte of `s`. -/
def escapeByte (c : Byte) : GoString :=
  if c = 32 then [43]
  else if shouldEscape c then [37, hexDigit (c / 16), hexDigit (c % 16)]
  else [c]

/-- Go `url.QueryEscape`. -/
def QueryEscape (s : GoString) : GoString := s.flatMap escapeByte

/-- Go `url.ishex`. -/
def ishex (c : Byte) : Bool :=
  (48 ≤ c ∧ c ≤ 57) ∨ (97 ≤ c ∧ c ≤ 102) ∨ (65 ≤ c ∧ c ≤ 70)

/-- Go `url.unhex`. -/
def unhex (c : Byte) : Byte :=
  if 48 ≤ c ∧ c ≤ 57 then c - 48
  else if 97 ≤ c ∧ c ≤ 102 then c - 97 + 10
  else if 65 ≤ c ∧ c ≤ 70 then c - 65 + 10
  else 0

/-- Go `url.EscapeError`, as an `error`. -/
def escapeError : Error := .other (lit "invalid URL escape")

/-- Go `url.QueryUnescape`: `%XX` is one byte, `+` is a space, and a `%` that is not
followed by two hex digits is an `EscapeError`. -/
def QueryUnescape : GoString → Except Error GoString
  | [] => .ok []
  | c :: rest =>
    if c = 37 then
      match rest with
      | h :: l :: rest2 =>
        if ishex h ∧ ishex l then
          match QueryUnescape rest2 with
          | .ok t => .ok ((unhex h * 16 + unhex l) :: t)
          | .error e => .error e
        else .error escapeError
      | _ => .error escapeError
    else
      match QueryUnescape rest with
      | .ok t => .ok ((if c = 43 then 32 else c) :: t)
      | .error e => .error e

namespace Values

/-- Go map index `v[key]`: the values of a key, empty when the key is absent. -/
def Index : Values → GoString → List GoString
  | [], _ => []
  | (k, vs) :: rest, key => if k = key then vs else Index rest key

/-- Go `url.Values.Add` (and `http.Header.Add` for a key already in canonical form, as
`Accept` is): appends the value to the values of the key. -/
def Add : Values → GoString → GoString → Values
  | [], key, value => [(key, [value])]
  | (k, vs) :: rest, key, value =>
    if k = key then (k, vs ++ [value]) :: rest else (k, vs) :: Add rest key value

/-- Go `<` on strings: byte-wise lexicographic order. -/
def less : GoString → GoString → Bool
  | [], [] => false
  | [], _ :: _ => true
  | _ :: _, [] => false
  | a :: as, b :: bs => if a < b then true else if b < a then false else less as bs

/-- Insertion of a key into a sorted list of keys. -/
def insertKey (k : GoString) : List GoString → List GoString
  | [] => [k]
  | x :: xs => if less x k then x :: insertKey k xs else k :: x :: xs

/-- Go `sort.Strings`. -/
def sortStrings : List GoString → List GoString
  | [] => []
  | k :: ks => insertKey k (sortStrings ks)

/-- The `key=value` pieces `Encode` writes, keys in sorted order. -/
def pieces (v : Values) : List GoString :=
  (sortStrings (v.map Prod.fst)).flatMap fun k =>
    (Index v k).map fun value => QueryEscape k ++ [61] ++ QueryEscape value

/-- Pieces joined by `&`. -/
def joinAmp : List GoString → GoString
  | [] => []
  | [p] => p
  | p :: q :: rest => p ++ 38 :: joinAmp (q :: rest)

/-- Go `url.Values.Encode`: `key=value` pairs, URL-escaped, sorted by key, joined by `&`. -/
def Encode (v : Values) : GoString := joinAmp (pieces v)

end Values

/-- Go `strings.Cut query "&"`: the bytes before the first `&`, and what follows it (`none`
when there is no `&`). -/
def cutField : GoString → GoString × Option GoString
  | [] => ([], none)
  | c :: rest =>
    if c = 38 then ([], some rest)
    else (c :: (cutField rest).1, (cutField rest).2)

/-- The fields of a query string, split at every `&`; the first argument bounds their
number. -/
def splitFields : Nat → GoString → List GoString
  | 0, _ => []
  | fuel + 1, query =>
    match cutField query with
    | (field, none) => [field]
    | (field, some rest) => field :: splitFields fuel rest

/-- Go `strings.Cut field "="`: the key and the value (empty when there is no `=`). -/
def cutKey : GoString → GoString × GoString
  | [] => ([], [])
  | c :: rest => if c = 61 then ([], rest) else (c :: (cutKey rest).1, (cutKey rest).2)

/-- The error `parseQuery` sets for a field that holds a `;`. -/
def semicolonError : Error := .other (lit "invalid semicolon separator in query")

/-- One round of `parseQuery`'s loop on a field: a field holding `;` is skipped with an
error, an empty field is skipped, a field whose key or value does not unescape is skipped
and its error kept when it is the first. -/
def parseField (acc : Values × Option Error) (field : GoString) : Values × Option Error :=
  if 59 ∈ field then (acc.1, some semicolonError)
  else if field = [] then acc
  else
    match QueryUnescape (cutKey field).1 with
    | .error e => (acc.1, if acc.2 = none then some e else acc.2)
    | .ok key =>
      match QueryUnescape (cutKey field).2 with
      | .error e => (acc.1, if acc.2 = none then some e else acc.2)
      | .ok value => (Values.Add acc.1 key value, acc.2)

/-- Go `url.ParseQuery`: the values parsed and the first error met. -/
def ParseQuery (query : GoString) : Values × Option Error :=
  (splitFields (query.length + 1) query).foldl parseField ([], none)

/-- The query part of a URL string: what follows its first `?`. -/
def rawQuery : GoString → GoString
  | [] => []
  | c :: rest => if c = 63 then rest else rawQuery rest

/-- The part of a URL string before its first `?`. -/
def rawPath : GoString → GoString
  | [] => []
  | c :: rest => if c = 63 then [] else c :: rawPath rest

/-- The bytes a query string reserves: `&` between fields, `;` (not allowed in a field), `=`
between key and value, `?` before the query. -/
def isReserved (b : Byte) : Bool := b = 38 || b = 59 || b = 61 || b = 63

/-- The `(key, value)` pairs of a `Values`, keys in sorted order, the values of one key in
their order. -/
def Values.pairs (v : Values) : List (GoString × GoString) :=
  (Values.sortStrings (v.map Prod.fst)).flatMap fun k => (Values.Index v k).map fun value => (k, value)

/-- The piece `Encode` writes for one pair. -/
def Values.piece (kv : GoString × GoString) : GoString :=
  QueryEscape kv.1 ++ [61] ++ QueryEscape kv.2

/-- The `Values` holding the given pairs, added one after the other. -/
def Values.ofPairs (ps : List (GoString × GoString)) : Values :=
  ps.foldl (fun m kv => Values.Add m kv.1 kv.2) []

/-! ## `users.go` -/

namespace UsersService

/-- `func (s *UsersService) Get(user string) (*User, *Response, error)`. -/
def Get (c : Client) (user : GoString) : Traced (Option User × Option Response × Option Error) :=
  let u := if user ≠ [] then lit "users/" ++ user else lit "user"
  match c.NewRequest (lit "GET") u none with
  | .error err => ⟨[.newRequest (lit "GET") u none], (none, none, some err)⟩
  | .ok req =>
    let uResp : User := {}
    let r := c.Do req .user uResp
    ⟨[.newRequest (lit "GET") u none, .doRequest req], (some r.dest, r.resp, r.err)⟩

/-- `func (s *UsersService) Edit(user *User) (*User, *Response, error)`. -/
def Edit (c : Client) (user : Option User) : Traced (Option User × Option Response × Option Error) :=
  let u := lit "user"
  match c.NewRequest (lit "PATCH") u (user.map Body.user) with
  | .error err => ⟨[.newRequest (lit "PATCH") u (user.map Body.user)], (none, none, some err)⟩
  | .ok req =>
    let uResp : User := {}
    let r := c.Do req .user uResp
    ⟨[.newRequest (lit "PATCH") u (user.map Body.user), .doRequest req],
      (some r.dest, r.resp, r.err)⟩

/-- `func (s *UsersService) ListAll(opt *UserListOptions) ([]User, *Response, error)`. -/
def ListAll (c : Client) (opt : Option UserListOptions) :
    Traced (List User × Option Response × Option Error) :=
  let u :=
    match opt with
    | some opt => lit "users" ++ (lit "?" ++ Values.Encode [(lit "since", [Itoa opt.Since])])
    | none => lit "users"
  match c.NewRequest (lit "GET") u none with
  | .error err => ⟨[.newRequest (lit "GET") u none], ([], none, some err)⟩
  | .ok req =>
    let users : List User := []
    let r := c.Do req .users users
    ⟨[.newRequest (lit "GET") u none, .doRequest req], (r.dest, r.resp, r.err)⟩

/-- `func (s *UsersService) ListFollowers(user string) ([]FollowingUser, error)`. -/
def ListFollowers (c : Client) (user : GoString) : Traced (List FollowingUser × Option Error) :=
  let u := if user ≠ [] then lit "/users/" ++ user ++ lit "/followers" else lit "/user/followers"
  match c.NewRequest (lit "GET") u none with
  | .error err => ⟨[.newRequest (lit "GET") u none], ([], some err)⟩
  | .ok req =>
    let users : List FollowingUser := []
    let r := c.Do req .followingUsers users
    ⟨[.newRequest (lit "GET") u none, .doRequest req], (r.dest, r.err)⟩

/-- `func (s *UsersService) FollowingUser(user string) (bool, error)`.  The status code is
read through the response pointer whatever the error is, so a nil response panics. -/
def FollowingUser (c : Client) (user : GoString) : Traced (Except GoPanic (Bool × Option Error)) :=
  let u := lit "/user/following/" ++ user
  match c.NewRequest (lit "GET") u none with
  | .error err => ⟨[.newRequest (lit "GET") u none], .ok (false, some err)⟩
  | .ok req =>
    let r := c.Do req .none ()
    ⟨[.newRequest (lit "GET") u none, .doRequest req],
      match r.resp with
      | none => .error .nilPointerDereference
      | some resp =>
        if resp.StatusCode = 202 then .ok (true, r.err)
        else if resp.StatusCode = 404 then .ok (false, r.err)
        else .ok (false, r.err)⟩

end UsersService

/-! ## `search.go` -/

namespace SearchService

/-- The `url.Values` that `search` fills before encoding them: `q` always, and the four
options when `opt` is not nil. -/
def searchParams (query : GoString) (opt : Option SearchOptions) : Values :=
  let params : Values := [(lit "q", [query])]
  match opt with
  | some opt =>
    Values.Add
      (Values.Add
        (Values.Add (Values.Add params (lit "sort") opt.Sort_) (lit "order") opt.Order)
        (lit "page") (Itoa opt.Page))
      (lit "per_page") (Itoa opt.PerPage)
  | none => params

/-- `func (s *SearchService) search(searchType string, query string, opt *SearchOptions,
result interface{}) (*Response, error)`; the third component of the result is the content of
`result` after the call.  `mimePreview` is a constant declared outside the embedded files. -/
def search (c : Client) (mimePreview : GoString) (searchType query : GoString)
    (opt : Option SearchOptions) (k : DestKind) (result : k.Target) :
    Traced (Option Response × Option Error × k.Target) :=
  let params := searchParams query opt
  let u := lit "search/" ++ searchType ++ lit "?" ++ Values.Encode params
  match c.NewRequest (lit "GET") u none with
  | .error err => ⟨[.newRequest (lit "GET") u none], (none, some err, result)⟩
  | .ok req =>
    let req := { req with Header := Values.Add req.Header (lit "Accept") mimePreview }
    let r := c.Do req k result
    ⟨[.newRequest (lit "GET") u none, .doRequest req], (r.resp, r.err, r.dest)⟩

/-- `func (s *SearchService) Repositories(query string, opt *SearchOptions)
(*RepositoriesSearchResult, *Response, error)`. -/
def Repositories (c : Client) (mimePreview : GoString) (query : GoString)
    (opt : Option SearchOptions) :
    Traced (Option RepositoriesSearchResult × Option Response × Option Error) :=
  let result : RepositoriesSearchResult := {}
  let r := search c mimePreview (lit "repositories") query opt .repositoriesSearch result
  ⟨r.calls, (some r.ret.2.2, r.ret.1, r.ret.2.1)⟩

/-- `func (s *SearchService) Issues(query string, opt *SearchOptions)
(*IssuesSearchResult, *Response, error)`. -/
def Issues (c : Client) (mimePreview : GoString) (query : GoString)
    (opt : Option SearchOptions) :
    Traced (Option IssuesSearchResult × Option Response × Option Error) :=
  let result : IssuesSearchResult := {}
  let r := search c mimePreview (lit "issues") query opt .issuesSearch result
  ⟨r.calls, (some r.ret.2.2, r.ret.1, r.ret.2.1)⟩

/-- `func (s *SearchService) Users(query string, opt *SearchOptions)
(*UsersSearchResult, *Response, error)`. -/
def Users (c : Client) (mimePreview : GoString) (query : GoString)
    (opt : Option SearchOptions) :
    Traced (Option UsersSearchResult × Option Response × Option Error) :=
  let result : UsersSearchResult := {}
  let r := search c mimePreview (lit "users") query opt .usersSearch result
  ⟨r.calls, (some r.ret.2.2, r.ret.1, r.ret.2.1)⟩

/-- `func (s *SearchService) Code(query string, opt *SearchOptions)
(*CodeSearchResult, *Response, error)`. -/
def Code (c : Client) (mimePreview : GoString) (query : GoString)
    (opt : Option SearchOptions) :
    Traced (Option CodeSearchResult × Option Response × Option Error) :=
  let result : CodeSearchResult := {}
  let r := search c mimePreview (lit "code") query opt .codeSearch result
  ⟨r.calls, (some r.ret.2.2, r.ret.1, r.ret.2.1)⟩

end SearchService

/-- The four public operations of `SearchService`. -/
inductive SearchOp where
  | repositories
  | issues
  | users
  | code
  deriving DecidableEq, Repr

/-- The discriminator each public operation passes to `search`. -/
def SearchOp.discriminator : SearchOp → GoString
  | .repositories => lit "repositories"
  | .issues => lit "issues"
  | .users => lit "users"
  | .code => lit "code"

/-- The calls a public search operation makes on the client. -/
def SearchOp.calls (op : SearchOp) (c : Client) (mimePreview query : GoString)
    (opt : Option SearchOptions) : List Call :=
  match op with
  | .repositories => (SearchService.Repositories c mimePreview query opt).calls
  | .issues => (SearchService.Issues c mimePreview query opt).calls
  | .users => (SearchService.Users c mimePreview query opt).calls
  | .code => (SearchService.Code c mimePreview query opt).calls

/-- The URL string a public search operation hands to the request builder. -/
def SearchOp.url (op : SearchOp) (query : GoString) (opt : Option SearchOptions) : GoString :=
  lit "search/" ++ op.discriminator ++ lit "?"
    ++ Values.Encode (SearchService.searchParams query opt)

/-! ## `encoding/json` on `User`

`NewRequest` encodes the body of a request with `encoding/json` and `Do` decodes the body of
a response with it.  What `users.go` decides of that encoding is in the tags of `User`: the
key of each field, `omitempty`, and that every field is a pointer.  The rest is the Go
standard library: strings are coerced to valid UTF-8, an `int` is written as its decimal
numeral, a `time.Time` as its RFC 3339 text (`Time.MarshalJSON`), and the decoder matches
keys without regard to case.  A JSON object is kept as the list of its members; a JSON
string as the bytes it spells, a JSON number as the integer it spells. -/

/-! ### UTF-8 (`unicode/utf8`) -/

/-- A UTF-8 continuation byte, `0x80` to `0xBF`. -/
def isCont (b : Byte) : Bool := decide (128 ≤ b ∧ b ≤ 191)

/-- The second byte a leading byte of a three- or four-byte sequence accepts (the
`acceptRanges` of `unicode/utf8`). -/
def acceptsSecond (b0 b1 : Byte) : Bool :=
  if b0 = 224 then decide (160 ≤ b1 ∧ b1 ≤ 191)
  else if b0 = 237 then decide (128 ≤ b1 ∧ b1 ≤ 159)
  else if b0 = 240 then decide (144 ≤ b1 ∧ b1 ≤ 191)
  else if b0 = 244 then decide (128 ≤ b1 ∧ b1 ≤ 143)
  else isCont b1

/-- Go `utf8.DecodeRune`, as far as the width goes: the number of bytes of the well-formed
UTF-8 sequence the bytes start with, `none` when they start with none (where Go returns
`RuneError` with width 1). -/
def runeWidth : GoString → Option Nat
  | [] => none
  | b0 :: rest =>
    if b0 < 128 then some 1
    else if 194 ≤ b0 ∧ b0 ≤ 223 then
      match rest with
      | b1 :: _ => if isCont b1 then some 2 else none
      | _ => none
    else if 224 ≤ b0 ∧ b0 ≤ 239 then
      match rest with
      | b1 :: b2 :: _ => if acceptsSecond b0 b1 && isCont b2 then some 3 else none
      | _ => none
    else if 240 ≤ b0 ∧ b0 ≤ 244 then
      match rest with
      | b1 :: b2 :: b3 :: _ =>
        if acceptsSecond b0 b1 && isCont b2 && isCont b3 then some 4 else none
      | _ => none
    else none

/-- The coercion of `encoding/json` to valid UTF-8, from inside a well-formed sequence of
which `k` bytes are still to be copied: a well-formed sequence is copied, any other byte
becomes U+FFFD (`EF BF BD`). -/
def coerceFrom : Nat → GoString → GoString
  | _, [] => []
  | k + 1, b :: rest => b :: coerceFrom k rest
  | 0, b :: rest =>
    match runeWidth (b :: rest) with
    | some n => b :: coerceFrom (n - 1) rest
    | none => 239 :: 191 :: 189 :: coerceFrom 0 rest

/-- What `encoding/json` makes of the bytes of a string, when it writes a Go string as a
JSON string and when it reads a JSON string into a Go string: invalid UTF-8 is replaced by
U+FFFD. -/
def toValidUTF8 (s : GoString) : GoString := coerceFrom 0 s

/-- Go `utf8.Valid`, from inside a well-formed sequence of which `k` bytes are left. -/
def validFrom : Nat → GoString → Bool
  | _, [] => true
  | k + 1, _ :: rest => validFrom k rest
  | 0, b :: rest =>
    match runeWidth (b :: rest) with
    | some n => validFrom (n - 1) rest
    | none => false

/-- Go `utf8.ValidString`. -/
def ValidString (s : GoString) : Bool := validFrom 0 s

/-! ### `time.Time` as JSON (`time/format_rfc3339.go`) -/

/-- A JSON value: `number n` is a number written as an integer, `fraction` a number written
with a fraction or an exponent, `string s` a string by the bytes it spells; of an array and
of an object only the kind is kept, as no field of `User` takes either. -/
inductive JSON where
  | null
  | bool (b : Bool)
  | number (n : Int)
  | fraction
  | string (s : GoString)
  | array
  | object
  deriving DecidableEq, Repr

/-- Go `json.UnmarshalTypeError`, as an `error`. -/
def unmarshalTypeError (value : GoString) : Error :=
  .other (lit "json: cannot unmarshal " ++ value)

/-- What a `*string` field takes from a JSON value: `null` makes it nil, a string is stored,
coerced to valid UTF-8. -/
def asString : JSON → Except Error (Option GoString)
  | .null => .ok none
  | .string s => .ok (some (toValidUTF8 s))
  | .bool _ => .error (unmarshalTypeError (lit "bool"))
  | .number _ => .error (unmarshalTypeError (lit "number"))
  | .fraction => .error (unmarshalTypeError (lit "number"))
  | .array => .error (unmarshalTypeError (lit "array"))
  | .object => .error (unmarshalTypeError (lit "object"))

/-- A request builder that keeps verb, path and body, and rejects a path with a malformed
percent escape with a URL-parse error. -/
def testNewRequest (method urlStr : GoString) (body : Option Body) : Except Error Request :=
  match QueryUnescape (rawPath urlStr) with
  | .error _ => .error (.urlError (lit "parse") urlStr (lit "invalid URL escape"))
  | .ok _ => .ok { Method := method, URL := urlStr, Body := body }

/-- A transport whose server answers every request with `status`: a status in 200..299
comes without error and the body is decoded into the destination by `decode`; any other
status comes with an API error carrying it and the destination is left as it was. -/
def testDo (status : Int) (decode : (k : DestKind) → k.Target → k.Target)
    (_req : Request) (k : DestKind) (v : k.Target) : DoResult k.Target :=
  if 200 ≤ status ∧ status ≤ 299 then ⟨some ⟨status⟩, none, decode k v⟩
  else ⟨some ⟨status⟩, some (.errorResponse status []), v⟩

/-- The client of a test server answering with `status` and a body decoded by `decode`. -/
def testClient (status : Int) (decode : (k : DestKind) → k.Target → k.Target) : Client :=
  ⟨testNewRequest, testDo status decode⟩

/-- A client whose transport fails before any response arrives: no response, an error, and
the destination untouched. -/
def downClient : Client :=
  ⟨testNewRequest, fun _ _ v => ⟨none, some (.other (lit "connection refused")), v⟩⟩

/-- An empty body: nothing is decoded. -/
def noBody : (k : DestKind) → k.Target → k.Target := fun _ v => v

/-- Decoding of the body `{"id":1}` into a `User`. -/
def bodyUserOne : (k : DestKind) → k.Target → k.Target
  | .user, (v : User) => ({ v with ID := some 1 } : User)
  | _, v => v

/-- Decoding of the body `[{"id":2}]` into a list of `User`. -/
def bodyUsersTwo : (k : DestKind) → k.Target → k.Target
  | .users, _ => ([{ ID := some 2 }] : List User)
  | _, v => v

/-- A transport whose server answers 200 with a body the decoder gives up on after storing
part of it: what `decode` stored is in the destination, and the decoding error comes back
next to the response. -/
def testDoDecodeError (decode : (k : DestKind) → k.Target → k.Target)
    (_req : Request) (k : DestKind) (v : k.Target) : DoResult k.Target :=
  ⟨some ⟨200⟩, some (.other (lit "json: cannot unmarshal")), decode k v⟩

/-- The client of a test server answering 200 with a body that decodes only in part. -/
def brokenBodyClient (decode : (k : DestKind) → k.Target → k.Target) : Client :=
  ⟨testNewRequest, testDoDecodeError decode⟩

/-! ## Lemmas: `net/url` escaping and parsing -/

set_option maxRecDepth 100000 in
theorem shouldEscape_false_plain : ∀ c : Byte, c ≠ 32 → shouldEscape c = false →
    c ≠ 37 ∧ c ≠ 43 := by decide

set_option maxRecDepth 100000 in
theorem hexDigit_unhex : ∀ c : Byte,
    ishex (hexDigit (c / 16)) = true ∧ ishex (hexDigit (c % 16)) = true ∧
    unhex (hexDigit (c / 16)) * 16 + unhex (hexDigit (c % 16)) = c := by decide

set_option maxRecDepth 100000 in
theorem escapeByte_all_unreserved : ∀ c : Byte,
    (escapeByte c).all (fun b => !isReserved b) = true := by decide

theorem escapeByte_unreserved (c : Byte) : ∀ b ∈ escapeByte c, isReserved b = false := by
  intro b hb
  have h := escapeByte_all_unreserved c
  rw [List.all_eq_true] at h
  simpa using h b hb

theorem queryEscape_cons (c : Byte) (s : GoString) :
    QueryEscape (c :: s) = escapeByte c ++ QueryEscape s := by
  simp [QueryEscape]

theorem queryEscape_unreserved (s : GoString) : ∀ b ∈ QueryEscape s, isReserved b = false := by
  induction s with
  | nil => intro b hb; simp [QueryEscape] at hb
  | cons c s ih =>
    intro b hb
    rw [queryEscape_cons, List.mem_append] at hb
    rcases hb with hb | hb
    · exact escapeByte_unreserved c b hb
    · exact ih b hb

theorem queryUnescape_cons_plain (c : Byte) (t r : GoString) (h37 : c ≠ 37)
    (h : QueryUnescape t = .ok r) :
    QueryUnescape (c :: t) = .ok ((if c = 43 then 32 else c) :: r) := by
  rw [QueryUnescape.eq_def]
  simp [h37, h]

theorem queryUnescape_escapeByte (c : Byte) (t r : GoString) (h : QueryUnescape t = .ok r) :
    QueryUnescape (escapeByte c ++ t) = .ok (c :: r) := by
  unfold escapeByte
  by_cases h32 : c = 32
  · subst h32
    simpa using queryUnescape_cons_plain 43 t r (by decide) h
  · by_cases hesc : shouldEscape c = true
    · obtain ⟨h1, h2, h3⟩ := hexDigit_unhex c
      simp [h32, hesc, QueryUnescape, h, h1, h2, h3]
    · have hesc2 : shouldEscape c = false := by simpa using hesc
      obtain ⟨h37, h43⟩ := shouldEscape_false_plain c h32 hesc2
      simpa [h32, hesc2, h43] using queryUnescape_cons_plain c t r h37 h

/-- Unescaping undoes `QueryEscape` on every byte sequence. -/
theorem queryUnescape_queryEscape (s : GoString) : QueryUnescape (QueryEscape s) = .ok s := by
  induction s with
  | nil => simp [QueryEscape, QueryUnescape]
  | cons c s ih =>
    rw [queryEscape_cons]
    exact queryUnescape_escapeByte c _ s ih

theorem isReserved_false (b : Byte) (h : isReserved b = false) :
    b ≠ 38 ∧ b ≠ 59 ∧ b ≠ 61 ∧ b ≠ 63 := by
  have h2 : ((¬b = 38 ∧ ¬b = 59) ∧ ¬b = 61) ∧ ¬b = 63 := by
    simpa [isReserved, not_or] using h
  exact ⟨h2.1.1.1, h2.1.1.2, h2.1.2, h2.2⟩

theorem cutField_of_no_sep (p : GoString) (hp : ∀ b ∈ p, b ≠ 38 ∧ b ≠ 59) :
    cutField p = (p, none) := by
  induction p with
  | nil => rfl
  | cons c p ih =>
    have hc := hp c (List.mem_cons_self c p)
    have ih2 := ih (fun b hb => hp b (List.mem_cons_of_mem c hb))
    simp [cutField, hc.1, ih2]

theorem cutField_append_amp (p rest : GoString) (hp : ∀ b ∈ p, b ≠ 38 ∧ b ≠ 59) :
    cutField (p ++ 38 :: rest) = (p, some rest) := by
  induction p with
  | nil => simp [cutField]
  | cons c p ih =>
    have hc := hp c (List.mem_cons_self c p)
    have ih2 := ih (fun b hb => hp b (List.mem_cons_of_mem c hb))
    simp [cutField, hc.1, ih2]

theorem cutKey_append_eq (k v : GoString) (hk : ∀ b ∈ k, b ≠ 61) :
    cutKey (k ++ 61 :: v) = (k, v) := by
  induction k with
  | nil => simp [cutKey]
  | cons c k ih =>
    have hc := hk c (List.mem_cons_self c k)
    have ih2 := ih (fun b hb => hk b (List.mem_cons_of_mem c hb))
    simp [cutKey, hc, ih2]

theorem piece_no_sep (kv : GoString × GoString) : ∀ b ∈ Values.piece kv, b ≠ 38 ∧ b ≠ 59 := by
  intro b hb
  simp only [Values.piece, List.mem_append, List.mem_singleton] at hb
  rcases hb with (hb | hb) | hb
  · have h := isReserved_false b (queryEscape_unreserved kv.1 b hb)
    exact ⟨h.1, h.2.1⟩
  · subst hb
    decide
  · have h := isReserved_false b (queryEscape_unreserved kv.2 b hb)
    exact ⟨h.1, h.2.1⟩

theorem length_joinAmp (ps : List GoString) : ps.length ≤ (Values.joinAmp ps).length + 1 := by
  induction ps with
  | nil => simp
  | cons p ps ih =>
    cases ps with
    | nil => simp [Values.joinAmp]
    | cons q rest =>
      simp only [Values.joinAmp, List.length_append, List.length_cons] at ih ⊢
      omega

theorem splitFields_joinAmp (ps : List GoString) (hne : ps ≠ [])
    (hps : ∀ p ∈ ps, ∀ b ∈ p, b ≠ 38 ∧ b ≠ 59) :
    ∀ fuel, ps.length ≤ fuel → splitFields fuel (Values.joinAmp ps) = ps := by
  induction ps with
  | nil => exact absurd rfl hne
  | cons p ps ih =>
    intro fuel hfuel
    have hp := hps p (List.mem_cons_self p ps)
    cases fuel with
    | zero => simp at hfuel
    | succ fuel =>
      cases ps with
      | nil => simp [Values.joinAmp, splitFields, cutField_of_no_sep p hp]
      | cons q rest =>
        have ih2 := ih (by simp) (fun x hx => hps x (List.mem_cons_of_mem p hx)) fuel
          (by simpa using hfuel)
        simp [Values.joinAmp, splitFields, cutField_append_amp p _ hp, ih2]

theorem piece_ne_nil (kv : GoString × GoString) : Values.piece kv ≠ [] := by
  simp [Values.piece]

theorem parseField_piece (acc : Values × Option Error) (kv : GoString × GoString) :
    parseField acc (Values.piece kv) = (Values.Add acc.1 kv.1 kv.2, acc.2) := by
  have hk : ∀ b ∈ QueryEscape kv.1, b ≠ 61 := fun b hb =>
    (isReserved_false b (queryEscape_unreserved kv.1 b hb)).2.2.1
  have hcut : cutKey (Values.piece kv) = (QueryEscape kv.1, QueryEscape kv.2) := by
    have := cutKey_append_eq (QueryEscape kv.1) (QueryEscape kv.2) hk
    simpa [Values.piece] using this
  have hsemi : (59 : Byte) ∉ Values.piece kv := fun hmem => (piece_no_sep kv 59 hmem).2 rfl
  simp [parseField, hsemi, piece_ne_nil, hcut, queryUnescape_queryEscape]

theorem foldl_parseField_pieces (ps : List (GoString × GoString)) :
    ∀ acc : Values × Option Error,
      (ps.map Values.piece).foldl parseField acc
        = (ps.foldl (fun m kv => Values.Add m kv.1 kv.2) acc.1, acc.2) := by
  induction ps with
  | nil => intro acc; rfl
  | cons kv ps ih =>
    intro acc
    simp only [List.map_cons, List.foldl_cons, parseField_piece, ih]

/-- Parsing the `&`-joined escaped pieces of a list of pairs gives back exactly those
pairs, without error. -/
theorem parseQuery_joinAmp_pieces (ps : List (GoString × GoString)) :
    ParseQuery (Values.joinAmp (ps.map Values.piece)) = (Values.ofPairs ps, none) := by
  cases ps with
  | nil => rfl
  | cons kv ps =>
    have hsplit := splitFields_joinAmp ((kv :: ps).map Values.piece) (by simp)
      (by
        intro p hp
        rw [List.mem_map] at hp
        obtain ⟨x, _, rfl⟩ := hp
        exact piece_no_sep x)
      ((Values.joinAmp ((kv :: ps).map Values.piece)).length + 1)
      (length_joinAmp _)
    unfold ParseQuery
    rw [hsplit, foldl_parseField_pieces]
    rfl

theorem pieces_eq_map_pairs (v : Values) : Values.pieces v = (Values.pairs v).map Values.piece := by
  simp [Values.pieces, Values.pairs, Values.piece, List.map_flatMap, Function.comp_def]

/-- `ParseQuery` undoes `Values.Encode`: it gives back the pairs of the encoded values. -/
theorem parseQuery_encode (v : Values) :
    ParseQuery (Values.Encode v) = (Values.ofPairs (Values.pairs v), none) := by
  rw [Values.Encode, pieces_eq_map_pairs, parseQuery_joinAmp_pieces]

/-! ## Theorems: `UsersService.FollowingUser` -/

/-- C1: when the request is built and the transport answers with status 202 and no error,
`FollowingUser` returns `(true, nil)`; when the transport answers with status 404 and
whatever error `e` (possibly none), `FollowingUser` returns `(false, e)`. -/
theorem followingUser_status_mapping (c : Client) (user : GoString) (req : Request)
    (resp : Response) (e : Option Error)
    (hreq : c.NewRequest (lit "GET") (lit "/user/following/" ++ user) none = .ok req)
    (hdo : c.Do req .none () = ⟨some resp, e, ()⟩) :
    (resp.StatusCode = 202 → e = none →
      (UsersService.FollowingUser c user).ret = .ok (true, none)) ∧
    (resp.StatusCode = 404 →
      (UsersService.FollowingUser c user).ret = .ok (false, e)) := by
  constructor
  · intro h202 he
    simp [UsersService.FollowingUser, hreq, hdo, h202, he]
  · intro h404
    simp [UsersService.FollowingUser, hreq, hdo, h404]

/-- Run of C1 against a server answering 202 and against a server answering 404. -/
theorem followingUser_status_mapping_witness :
    (UsersService.FollowingUser (testClient 202 noBody) (lit "u")).ret = .ok (true, none) ∧
    (UsersService.FollowingUser (testClient 404 noBody) (lit "u")).ret
      = .ok (false, some (.errorResponse 404 [])) :=
  ⟨(followingUser_status_mapping (testClient 202 noBody) (lit "u")
      ⟨lit "GET", lit "/user/following/u", [], none⟩ ⟨202⟩ none rfl rfl).1 rfl rfl,
   (followingUser_status_mapping (testClient 404 noBody) (lit "u")
      ⟨lit "GET", lit "/user/following/u", [], none⟩ ⟨404⟩
      (some (.errorResponse 404 [])) rfl rfl).2 rfl⟩

/-- C2, as stated, fails: a response with status 200 (neither 202, 204 nor 404) that the
transport reports without error makes `FollowingUser` return `(false, nil)`. -/
theorem followingUser_status_200_nil_error :
    ((200 : Int) ≠ 202 ∧ (200 : Int) ≠ 204 ∧ (200 : Int) ≠ 404) ∧
    ((testClient 200 noBody).Do ⟨lit "GET", lit "/user/following/u", [], none⟩ .none ()).resp
      = some ⟨200⟩ ∧
    ((testClient 200 noBody).Do ⟨lit "GET", lit "/user/following/u", [], none⟩ .none ()).err
      = none ∧
    (UsersService.FollowingUser (testClient 200 noBody) (lit "u")).ret = .ok (false, none) := by
  refine ⟨by decide, rfl, rfl, rfl⟩

/-- C2, amended: for a response whose status is neither 202, 204 nor 404, `FollowingUser`
returns `(false, e)` with `e` exactly the error the transport reported for it, so the
returned error is non-nil exactly when the transport reported one. -/
theorem followingUser_other_status_relays_error (c : Client) (user : GoString) (req : Request)
    (resp : Response) (e : Option Error)
    (hreq : c.NewRequest (lit "GET") (lit "/user/following/" ++ user) none = .ok req)
    (hdo : c.Do req .none () = ⟨some resp, e, ()⟩)
    (h202 : resp.StatusCode ≠ 202) (_h204 : resp.StatusCode ≠ 204)
    (h404 : resp.StatusCode ≠ 404) :
    (UsersService.FollowingUser c user).ret = .ok (false, e) ∧
    (∀ b err, (UsersService.FollowingUser c user).ret = .ok (b, err) →
      (err ≠ none ↔ e ≠ none)) := by
  have hret : (UsersService.FollowingUser c user).ret = .ok (false, e) := by
    simp [UsersService.FollowingUser, hreq, hdo, h202, h404]
  refine ⟨hret, ?_⟩
  intro b err h
  rw [hret] at h
  cases h
  exact Iff.rfl

/-- Run of the amended C2 against a server answering 500: the API error comes back. -/
theorem followingUser_other_status_relays_error_witness :
    (UsersService.FollowingUser (testClient 500 noBody) (lit "u")).ret
      = .ok (false, some (.errorResponse 500 [])) :=
  (followingUser_other_status_relays_error (testClient 500 noBody) (lit "u")
    ⟨lit "GET", lit "/user/following/u", [], none⟩ ⟨500⟩ (some (.errorResponse 500 []))
    rfl rfl (by decide) (by decide) (by decide)).1

/-- C3, as stated, fails: a response with status 204 and no error makes `FollowingUser`
return `false`. -/
theorem followingUser_status_204_false :
    ((testClient 204 noBody).Do ⟨lit "GET", lit "/user/following/u", [], none⟩ .none ()).resp
      = some ⟨204⟩ ∧
    ((testClient 204 noBody).Do ⟨lit "GET", lit "/user/following/u", [], none⟩ .none ()).err
      = none ∧
    (UsersService.FollowingUser (testClient 204 noBody) (lit "u")).ret = .ok (false, none) := by
  refine ⟨rfl, rfl, rfl⟩

/-- C3, amended: a response with status 204 and no error makes `FollowingUser` return
`(false, nil)`; the only status for which `FollowingUser` returns `true` is 202. -/
theorem followingUser_true_iff_202 (c : Client) (user : GoString) (req : Request)
    (resp : Response) (e : Option Error)
    (hreq : c.NewRequest (lit "GET") (lit "/user/following/" ++ user) none = .ok req)
    (hdo : c.Do req .none () = ⟨some resp, e, ()⟩) :
    (resp.StatusCode = 204 → e = none →
      (UsersService.FollowingUser c user).ret = .ok (false, none)) ∧
    ((UsersService.FollowingUser c user).ret = .ok (true, e) ↔ resp.StatusCode = 202) := by
  constructor
  · intro h204 he
    simp [UsersService.FollowingUser, hreq, hdo, h204, he]
  · by_cases h202 : resp.StatusCode = 202
    · simp [UsersService.FollowingUser, hreq, hdo, h202]
    · by_cases h404 : resp.StatusCode = 404
      · simp [UsersService.FollowingUser, hreq, hdo, h404]
      · simp [UsersService.FollowingUser, hreq, hdo, h202, h404]

/-- Run of the amended C3 against a server answering 204 and a server answering 202. -/
theorem followingUser_true_iff_202_witness :
    (UsersService.FollowingUser (testClient 204 noBody) (lit "u")).ret = .ok (false, none) ∧
    (UsersService.FollowingUser (testClient 202 noBody) (lit "u")).ret = .ok (true, none) :=
  ⟨(followingUser_true_iff_202 (testClient 204 noBody) (lit "u")
      ⟨lit "GET", lit "/user/following/u", [], none⟩ ⟨204⟩ none rfl rfl).1 rfl rfl,
   (followingUser_true_iff_202 (testClient 202 noBody) (lit "u")
      ⟨lit "GET", lit "/user/following/u", [], none⟩ ⟨202⟩ none rfl rfl).2.mpr rfl⟩

/-- C4: the code at the failing input.  The request is built, the transport fails with an
error and no response, and `FollowingUser` reads the status code through the nil response:
the call panics instead of returning `(false, err)`. -/
theorem followingUser_nil_response_panics :
    downClient.NewRequest (lit "GET") (lit "/user/following/u") none
      = .ok ⟨lit "GET", lit "/user/following/u", [], none⟩ ∧
    (downClient.Do ⟨lit "GET", lit "/user/following/u", [], none⟩ .none ()).resp = none ∧
    (downClient.Do ⟨lit "GET", lit "/user/following/u", [], none⟩ .none ()).err
      = some (.other (lit "connection refused")) ∧
    (UsersService.FollowingUser downClient (lit "u")).ret
      = .error .nilPointerDereference ∧
    (UsersService.FollowingUser downClient (lit "u")).ret
      ≠ .ok (false, some (.other (lit "connection refused"))) := by
  refine ⟨rfl, rfl, rfl, rfl, ?_⟩
  intro h
  cases h

/-! ## Theorems: `UsersService.Get` -/

/-- C5: `Get` calls the request builder once, with verb `GET`, no body and the path `user`
for the empty identifier and `users/` followed by the identifier otherwise; when the request
is built it is handed to the transport once, with a fresh `User` as destination, and the
`User` returned is what the transport left in that destination. -/
theorem get_one_request (c : Client) (user : GoString) :
    built (UsersService.Get c user).calls
      = [(lit "GET", if user = [] then lit "user" else lit "users/" ++ user, none)] ∧
    (∀ req,
      c.NewRequest (lit "GET") (if user = [] then lit "user" else lit "users/" ++ user) none
        = .ok req →
      sent (UsersService.Get c user).calls = [req] ∧
      (UsersService.Get c user).ret
        = (some (c.Do req .user {}).dest, (c.Do req .user {}).resp,
            (c.Do req .user {}).err)) := by
  by_cases hu : user = []
  · subst hu
    refine ⟨?_, ?_⟩
    · dsimp only [UsersService.Get]
      split <;> simp [built]
    · intro req hreq
      simp only [if_true] at hreq
      simp [UsersService.Get, hreq, sent]
  · refine ⟨?_, ?_⟩
    · dsimp only [UsersService.Get]
      split <;> simp [built, hu]
    · intro req hreq
      simp only [hu, if_false] at hreq
      simp [UsersService.Get, hu, hreq, sent]

/-- Run of C5 for the authenticated user and for the user `u`, against a server answering
`{"id":1}`: one `GET` each, and a `User` with only `ID = 1` present. -/
theorem get_one_request_witness :
    (sent (UsersService.Get (testClient 200 bodyUserOne) []).calls
        = [⟨lit "GET", lit "user", [], none⟩] ∧
      (UsersService.Get (testClient 200 bodyUserOne) []).ret
        = (some { ID := some 1 }, some ⟨200⟩, none)) ∧
    (sent (UsersService.Get (testClient 200 bodyUserOne) (lit "u")).calls
        = [⟨lit "GET", lit "users/u", [], none⟩] ∧
      (UsersService.Get (testClient 200 bodyUserOne) (lit "u")).ret
        = (some { ID := some 1 }, some ⟨200⟩, none)) :=
  ⟨(get_one_request (testClient 200 bodyUserOne) []).2 ⟨lit "GET", lit "user", [], none⟩ rfl,
   (get_one_request (testClient 200 bodyUserOne) (lit "u")).2
      ⟨lit "GET", lit "users/u", [], none⟩ rfl⟩

/-- C6: when building the request of `Get` fails with `err`, `Get` returns
`(nil, nil, err)` and hands nothing to the transport. -/
theorem get_invalid_user (c : Client) (user : GoString) (err : Error)
    (hreq : c.NewRequest (lit "GET") (if user = [] then lit "user" else lit "users/" ++ user)
      none = .error err) :
    (UsersService.Get c user).ret = (none, none, some err) ∧
    sent (UsersService.Get c user).calls = [] := by
  by_cases hu : user = []
  · subst hu
    simp only [if_true] at hreq
    simp [UsersService.Get, hreq, sent]
  · simp only [hu, if_false] at hreq
    simp [UsersService.Get, hu, hreq, sent]

/-- Run of C6 for the identifier `%`: a URL-parse error and no call of the transport. -/
theorem get_invalid_user_witness :
    (testClient 200 bodyUserOne).NewRequest (lit "GET") (lit "users/%") none
      = .error (.urlError (lit "parse") (lit "users/%") (lit "invalid URL escape")) ∧
    (UsersService.Get (testClient 200 bodyUserOne) (lit "%")).ret
      = (none, none, some (.urlError (lit "parse") (lit "users/%") (lit "invalid URL escape"))) ∧
    sent (UsersService.Get (testClient 200 bodyUserOne) (lit "%")).calls = [] :=
  ⟨rfl, get_invalid_user (testClient 200 bodyUserOne) (lit "%")
    (.urlError (lit "parse") (lit "users/%") (lit "invalid URL escape")) rfl⟩

/-! ## Lemmas: decimal renderings need no escaping -/

set_option maxRecDepth 100000 in
theorem escapeByte_digit : ∀ d : Nat, d < 10 →
    escapeByte (Fin.ofNat (48 + d)) = [Fin.ofNat (48 + d)] := by decide

theorem queryEscape_formatDigits (fuel : Nat) :
    ∀ (n : Nat) (acc : GoString), QueryEscape acc = acc →
      QueryEscape (formatDigits fuel n acc) = formatDigits fuel n acc := by
  induction fuel with
  | zero => intro n acc hacc; simpa [formatDigits] using hacc
  | succ fuel ih =>
    intro n acc hacc
    by_cases hn : n < 10
    · simp [formatDigits, hn, queryEscape_cons, escapeByte_digit n hn, hacc]
    · have hlt : n % 10 < 10 := Nat.mod_lt n (by decide)
      have hacc2 : QueryEscape (Fin.ofNat (48 + n % 10) :: acc) = Fin.ofNat (48 + n % 10) :: acc := by
        simp [queryEscape_cons, escapeByte_digit (n % 10) hlt, hacc]
      simpa [formatDigits, hn] using ih (n / 10) _ hacc2

/-- `QueryEscape` leaves a decimal rendering as it is. -/
theorem queryEscape_Itoa (i : Int) : QueryEscape (Itoa i) = Itoa i := by
  have h := queryEscape_formatDigits (i.natAbs + 1) i.natAbs [] (by simp [QueryEscape])
  by_cases hi : i < 0
  · have h45 : escapeByte 45 = [45] := by decide
    simp [Itoa, hi, queryEscape_cons, h45, h]
  · simp [Itoa, hi, h]

theorem digitChar_byte : ∀ d : Nat, d < 10 →
    (Fin.ofNat (Nat.digitChar d).toNat : Byte) = Fin.ofNat (48 + d) := by decide

theorem formatDigits_eq_toDigitsCore (fuel : Nat) :
    ∀ (n : Nat) (ds : List Char),
      formatDigits fuel n (ds.map fun c => Fin.ofNat c.toNat)
        = (Nat.toDigitsCore 10 fuel n ds).map fun c => Fin.ofNat c.toNat := by
  induction fuel with
  | zero => intro n ds; simp [formatDigits, Nat.toDigitsCore]
  | succ fuel ih =>
    intro n ds
    have hd := digitChar_byte (n % 10) (Nat.mod_lt n (by decide))
    by_cases hn : n < 10
    · have h0 : n / 10 = 0 := Nat.div_eq_of_lt hn
      have hm : n % 10 = n := Nat.mod_eq_of_lt hn
      rw [hm] at hd
      simp [formatDigits, Nat.toDigitsCore, hn, h0, hm, hd]
    · have h0 : n / 10 ≠ 0 := by omega
      have hstep := ih (n / 10) (Nat.digitChar (n % 10) :: ds)
      simp only [List.map_cons, hd] at hstep
      simp [formatDigits, Nat.toDigitsCore, hn, h0, hstep]

/-- `Itoa` is the decimal rendering: the bytes of the decimal numeral of the integer. -/
theorem Itoa_eq_repr (i : Int) : Itoa i = lit i.repr := by
  cases i with
  | ofNat m =>
    have h := formatDigits_eq_toDigitsCore (m + 1) m []
    have hneg : ¬ ((m : Int) < 0) := by omega
    simpa [Itoa, lit, Int.repr, Nat.repr, Nat.toDigits, hneg] using h
  | negSucc m =>
    have h := formatDigits_eq_toDigitsCore (m + 1 + 1) (m + 1) []
    have hneg : Int.negSucc m < 0 := Int.negSucc_lt_zero m
    simp only [List.map_nil] at h
    simp [Itoa, lit, Int.repr, Nat.repr, Nat.toDigits, hneg]
    exact ⟨by decide, by simpa [List.asString] using h⟩

theorem mem_index_add (h : Values) (key value : GoString) :
    value ∈ Values.Index (Values.Add h key value) key := by
  induction h with
  | nil => simp [Values.Add, Values.Index]
  | cons kv rest ih =>
    obtain ⟨k, vs⟩ := kv
    by_cases hk : k = key
    · simp [Values.Add, Values.Index, hk]
    · simp [Values.Add, Values.Index, hk, ih]

/-! ## Theorems: `SearchService` -/

/-- C7: for every query and every supplied options value, `search` hands the request
builder a URL whose query string is the encoding of its parameters, and that query string
decodes, without error, to exactly the five parameters `q`, `sort`, `order`, `page` and
`per_page`, each with the single value given (the page numbers as decimal numerals), none
omitted even when empty or zero. -/
theorem search_query_decodes (c : Client) (mimePreview searchType query : GoString)
    (opt : SearchOptions) (k : DestKind) (result : k.Target) :
    built (SearchService.search c mimePreview searchType query (some opt) k result).calls
      = [(lit "GET",
          lit "search/" ++ searchType ++ lit "?"
            ++ Values.Encode (SearchService.searchParams query (some opt)),
          none)] ∧
    ParseQuery (Values.Encode (SearchService.searchParams query (some opt)))
      = ([(lit "order", [opt.Order]), (lit "page", [Itoa opt.Page]),
          (lit "per_page", [Itoa opt.PerPage]), (lit "q", [query]),
          (lit "sort", [opt.Sort_])], none) ∧
    Itoa opt.Page = lit opt.Page.repr ∧ Itoa opt.PerPage = lit opt.PerPage.repr := by
  refine ⟨?_, ?_, Itoa_eq_repr _, Itoa_eq_repr _⟩
  · dsimp only [SearchService.search]
    split <;> simp [built]
  · rw [parseQuery_encode]
    rfl

/-- Run of C7 on the query of the tests: `blah` with `Sort="forks"`, `Order="desc"`,
`Page=2`, `PerPage=2`. -/
theorem search_query_decodes_witness :
    Values.Encode (SearchService.searchParams (lit "blah") (some ⟨lit "forks", lit "desc", 2, 2⟩))
      = lit "order=desc&page=2&per_page=2&q=blah&sort=forks" ∧
    ParseQuery
        (Values.Encode (SearchService.searchParams (lit "blah") (some ⟨lit "forks", lit "desc", 2, 2⟩)))
      = ([(lit "order", [lit "desc"]), (lit "page", [lit "2"]), (lit "per_page", [lit "2"]),
          (lit "q", [lit "blah"]), (lit "sort", [lit "forks"])], none) :=
  ⟨by decide,
   (search_query_decodes (testClient 200 noBody) (lit "application/vnd.github.preview")
      (lit "repositories") (lit "blah") ⟨lit "forks", lit "desc", 2, 2⟩
      .repositoriesSearch {}).2.1⟩

/-- C8: each of `Repositories`, `Issues`, `Users` and `Code` calls the request builder once,
with verb `GET` and the path `search/` followed by its discriminator; every request it hands
to the transport carries the header `Accept` with the preview media type; and when the
request is built, exactly that request, with the header added, is handed to the transport. -/
theorem search_ops_request (op : SearchOp) (c : Client) (mimePreview query : GoString)
    (opt : Option SearchOptions) :
    built (op.calls c mimePreview query opt) = [(lit "GET", op.url query opt, none)] ∧
    rawPath (op.url query opt) = lit "search/" ++ op.discriminator ∧
    (∀ req ∈ sent (op.calls c mimePreview query opt),
      mimePreview ∈ Values.Index req.Header (lit "Accept")) ∧
    (∀ req, c.NewRequest (lit "GET") (op.url query opt) none = .ok req →
      sent (op.calls c mimePreview query opt)
        = [{ req with Header := Values.Add req.Header (lit "Accept") mimePreview }]) := by
  have key : ∀ (st : GoString) (k : DestKind) (result : k.Target),
      built (SearchService.search c mimePreview st query opt k result).calls
        = [(lit "GET",
            lit "search/" ++ st ++ lit "?" ++ Values.Encode (SearchService.searchParams query opt),
            none)] ∧
      (∀ req ∈ sent (SearchService.search c mimePreview st query opt k result).calls,
        mimePreview ∈ Values.Index req.Header (lit "Accept")) ∧
      (∀ req, c.NewRequest (lit "GET")
          (lit "search/" ++ st ++ lit "?" ++ Values.Encode (SearchService.searchParams query opt))
          none = .ok req →
        sent (SearchService.search c mimePreview st query opt k result).calls
          = [{ req with Header := Values.Add req.Header (lit "Accept") mimePreview }]) := by
    intro st k result
    dsimp only [SearchService.search]
    split <;> simp_all [built, sent, mem_index_add]
  cases op
  · exact ⟨(key _ .repositoriesSearch {}).1, rfl, (key _ .repositoriesSearch {}).2⟩
  · exact ⟨(key _ .issuesSearch {}).1, rfl, (key _ .issuesSearch {}).2⟩
  · exact ⟨(key _ .usersSearch {}).1, rfl, (key _ .usersSearch {}).2⟩
  · exact ⟨(key _ .codeSearch {}).1, rfl, (key _ .codeSearch {}).2⟩

/-- Run of C8 for `Repositories` on the query of the tests: one request, with the header. -/
theorem search_ops_request_witness :
    sent (SearchService.Repositories (testClient 200 noBody) (lit "application/vnd.github.preview")
        (lit "blah") (some ⟨lit "forks", lit "desc", 2, 2⟩)).calls
      = [⟨lit "GET", lit "search/repositories?order=desc&page=2&per_page=2&q=blah&sort=forks",
          [(lit "Accept", [lit "application/vnd.github.preview"])], none⟩] :=
  (search_ops_request .repositories (testClient 200 noBody)
    (lit "application/vnd.github.preview") (lit "blah")
    (some ⟨lit "forks", lit "desc", 2, 2⟩)).2.2.2
    ⟨lit "GET", lit "search/repositories?order=desc&page=2&per_page=2&q=blah&sort=forks", [], none⟩
    rfl

/-! ## Theorems: `UsersService.ListAll` -/

theorem encode_since (i : Int) :
    Values.Encode [(lit "since", [Itoa i])] = lit "since=" ++ Itoa i := by
  have h1 : Values.Encode [(lit "since", [Itoa i])]
      = QueryEscape (lit "since") ++ [61] ++ QueryEscape (Itoa i) := rfl
  have h2 : QueryEscape (lit "since") = lit "since" := by decide
  rw [h1, h2, queryEscape_Itoa]
  rfl

/-- C9: with options, `ListAll` asks the request builder for a `GET` of `users?since=`
followed by the decimal rendering of `Since`, zero and negative values included (its path is
`users` and its query string decodes to the single parameter `since` with that single
value); without options the URL is exactly `users`.  When the request is built it is handed to the transport once, with an
empty list as destination, and the list returned is the one the transport left there. -/
theorem listAll_request (c : Client) (o : UserListOptions) :
    built (UsersService.ListAll c (some o)).calls
      = [(lit "GET", lit "users?since=" ++ Itoa o.Since, none)] ∧
    Itoa o.Since = lit o.Since.repr ∧
    rawPath (lit "users?since=" ++ Itoa o.Since) = lit "users" ∧
    ParseQuery (rawQuery (lit "users?since=" ++ Itoa o.Since))
      = ([(lit "since", [Itoa o.Since])], none) ∧
    built (UsersService.ListAll c none).calls = [(lit "GET", lit "users", none)] ∧
    (∀ req, c.NewRequest (lit "GET") (lit "users?since=" ++ Itoa o.Since) none = .ok req →
      sent (UsersService.ListAll c (some o)).calls = [req] ∧
      (UsersService.ListAll c (some o)).ret
        = ((c.Do req .users []).dest, (c.Do req .users []).resp, (c.Do req .users []).err)) ∧
    (∀ req, c.NewRequest (lit "GET") (lit "users") none = .ok req →
      sent (UsersService.ListAll c none).calls = [req] ∧
      (UsersService.ListAll c none).ret
        = ((c.Do req .users []).dest, (c.Do req .users []).resp, (c.Do req .users []).err)) := by
  have hu : lit "users" ++ (lit "?" ++ Values.Encode [(lit "since", [Itoa o.Since])])
      = lit "users?since=" ++ Itoa o.Since := by
    rw [encode_since]
    rfl
  have hq : rawQuery (lit "users?since=" ++ Itoa o.Since)
      = Values.Encode [(lit "since", [Itoa o.Since])] := by
    rw [encode_since]
    rfl
  refine ⟨?_, Itoa_eq_repr _, rfl, ?_, ?_, ?_, ?_⟩
  · dsimp only [UsersService.ListAll]
    rw [hu]
    split <;> simp [built]
  · rw [hq, parseQuery_encode]
    rfl
  · dsimp only [UsersService.ListAll]
    split <;> simp [built]
  · intro req hreq
    dsimp only [UsersService.ListAll]
    rw [hu, hreq]
    simp [sent]
  · intro req hreq
    dsimp only [UsersService.ListAll]
    rw [hreq]
    simp [sent]

/-- Run of C9 with `Since = 1` against a server answering `[{"id":2}]`: the request is a
`GET` of `users?since=1` and the result is one `User` with `ID = 2`. -/
theorem listAll_request_witness :
    (sent (UsersService.ListAll (testClient 200 bodyUsersTwo) (some ⟨1⟩)).calls
        = [⟨lit "GET", lit "users?since=1", [], none⟩] ∧
      (UsersService.ListAll (testClient 200 bodyUsersTwo) (some ⟨1⟩)).ret
        = ([{ ID := some 2 }], some ⟨200⟩, none)) ∧
    (sent (UsersService.ListAll (testClient 200 bodyUsersTwo) none).calls
        = [⟨lit "GET", lit "users", [], none⟩] ∧
      (UsersService.ListAll (testClient 200 bodyUsersTwo) none).ret
        = ([{ ID := some 2 }], some ⟨200⟩, none)) :=
  ⟨(listAll_request (testClient 200 bodyUsersTwo) ⟨1⟩).2.2.2.2.2.1
      ⟨lit "GET", lit "users?since=1", [], none⟩ rfl,
   (listAll_request (testClient 200 bodyUsersTwo) ⟨1⟩).2.2.2.2.2.2
      ⟨lit "GET", lit "users", [], none⟩ rfl⟩

/-! ## Theorems: the paths of `ListFollowers` and `FollowingUser` -/

/-- C10: the code at every input.  The URL strings `ListFollowers` and `FollowingUser` hand
to the request builder start with `/` (`/user/followers`, `/users/{user}/followers`,
`/user/following/{user}`); they are not the relative paths of the protocol table, while `Get`
hands over `user` and `users/{user}`. -/
theorem followers_paths_leading_slash (c : Client) (user : GoString) :
    built (UsersService.ListFollowers c user).calls
      = [(lit "GET",
          if user = [] then lit "/user/followers" else lit "/users/" ++ user ++ lit "/followers",
          none)] ∧
    built (UsersService.FollowingUser c user).calls
      = [(lit "GET", lit "/user/following/" ++ user, none)] ∧
    built (UsersService.Get c user).calls
      = [(lit "GET", if user = [] then lit "user" else lit "users/" ++ user, none)] ∧
    (if user = [] then lit "/user/followers" else lit "/users/" ++ user ++ lit "/followers")
      ≠ (if user = [] then lit "user/followers" else lit "users/" ++ user ++ lit "/followers") ∧
    lit "/user/following/" ++ user ≠ lit "user/following/" ++ user := by
  refine ⟨?_, ?_, ?_, ?_, ?_⟩
  · dsimp only [UsersService.ListFollowers]
    by_cases hu : user = [] <;> (simp only [hu, ne_eq, not_true_eq_false, not_false_eq_true, if_true, if_false]; split <;> simp [built])
  · dsimp only [UsersService.FollowingUser]
    split <;> simp [built]
  · dsimp only [UsersService.Get]
    by_cases hu : user = [] <;> (simp only [hu, ne_eq, not_true_eq_false, not_false_eq_true, if_true, if_false]; split <;> simp [built])
  · by_cases hu : user = []
    · simp only [hu, if_true]
      decide
    · simp only [hu, if_false]
      intro h
      have h2 := congrArg List.head? h
      simp [lit] at h2
      exact absurd h2 (by decide)
  · intro h
    have h2 := congrArg List.head? h
    simp [lit] at h2
    exact absurd h2 (by decide)

/-! ## Theorems: the value returned next to an error -/

theorem search_ret_of_error (c : Client) (mimePreview searchType query : GoString)
    (opt : Option SearchOptions) (k : DestKind) (result : k.Target) (e : Error)
    (h : c.NewRequest (lit "GET")
      (lit "search/" ++ searchType ++ lit "?"
        ++ Values.Encode (SearchService.searchParams query opt)) none = .error e) :
    (SearchService.search c mimePreview searchType query opt k result).ret
      = (none, some e, result) := by
  dsimp only [SearchService.search]
  rw [h]

theorem search_ret_of_ok (c : Client) (mimePreview searchType query : GoString)
    (opt : Option SearchOptions) (k : DestKind) (result : k.Target) (req : Request)
    (h : c.NewRequest (lit "GET")
      (lit "search/" ++ searchType ++ lit "?"
        ++ Values.Encode (SearchService.searchParams query opt)) none = .ok req) :
    (SearchService.search c mimePreview searchType query opt k result).ret.2.2
      = (c.Do { req with Header := Values.Add req.Header (lit "Accept") mimePreview }
          k result).dest := by
  dsimp only [SearchService.search]
  rw [h]

/-- C11, as stated, fails: against a transport that stores `ID = 1` in the destination and
then fails, `Get` and `Edit` return a non-nil error together with a `User` holding
`ID = 1`, and `ListAll` returns it together with a one-element list. -/
theorem value_partly_populated_on_error :
    (UsersService.Get (brokenBodyClient bodyUserOne) []).ret
      = (some { ID := some 1 }, some ⟨200⟩, some (.other (lit "json: cannot unmarshal"))) ∧
    (UsersService.Edit (brokenBodyClient bodyUserOne) (some { Name := some (lit "n") })).ret
      = (some { ID := some 1 }, some ⟨200⟩, some (.other (lit "json: cannot unmarshal"))) ∧
    (UsersService.ListAll (brokenBodyClient bodyUsersTwo) none).ret
      = ([{ ID := some 2 }], some ⟨200⟩, some (.other (lit "json: cannot unmarshal"))) ∧
    (some ({ ID := some 1 } : User) ≠ none ∧ ({ ID := some 1 } : User) ≠ {}) := by
  refine ⟨rfl, rfl, rfl, by decide, by decide⟩

/-- C11, amended: for each of `Get`, `Edit`, `ListAll`, `ListFollowers`, `Repositories`,
`Issues`, `Users` and `Code`, when building the request fails the value returned next to
the error is the empty form (nil, the empty sequence, or for a search a pointer to an
empty result), and when the request is built the value returned, whatever the error, is
what the transport left in the fresh, empty destination. -/
theorem value_returned_on_error (c : Client) (mimePreview : GoString) :
    (∀ user,
      (∀ e, c.NewRequest (lit "GET") (if user = [] then lit "user" else lit "users/" ++ user)
          none = .error e →
        (UsersService.Get c user).ret = (none, none, some e)) ∧
      (∀ req, c.NewRequest (lit "GET") (if user = [] then lit "user" else lit "users/" ++ user)
          none = .ok req →
        (UsersService.Get c user).ret
          = (some (c.Do req .user {}).dest, (c.Do req .user {}).resp,
              (c.Do req .user {}).err))) ∧
    (∀ user,
      (∀ e, c.NewRequest (lit "PATCH") (lit "user") (user.map Body.user) = .error e →
        (UsersService.Edit c user).ret = (none, none, some e)) ∧
      (∀ req, c.NewRequest (lit "PATCH") (lit "user") (user.map Body.user) = .ok req →
        (UsersService.Edit c user).ret
          = (some (c.Do req .user {}).dest, (c.Do req .user {}).resp,
              (c.Do req .user {}).err))) ∧
    (∀ opt u,
      built (UsersService.ListAll c opt).calls = [(lit "GET", u, none)] →
      (∀ e, c.NewRequest (lit "GET") u none = .error e →
        (UsersService.ListAll c opt).ret = ([], none, some e)) ∧
      (∀ req, c.NewRequest (lit "GET") u none = .ok req →
        (UsersService.ListAll c opt).ret
          = ((c.Do req .users []).dest, (c.Do req .users []).resp,
              (c.Do req .users []).err))) ∧
    (∀ user u,
      built (UsersService.ListFollowers c user).calls = [(lit "GET", u, none)] →
      (∀ e, c.NewRequest (lit "GET") u none = .error e →
        (UsersService.ListFollowers c user).ret = ([], some e)) ∧
      (∀ req, c.NewRequest (lit "GET") u none = .ok req →
        (UsersService.ListFollowers c user).ret
          = ((c.Do req .followingUsers []).dest, (c.Do req .followingUsers []).err))) ∧
    (∀ query opt,
      (∀ e, c.NewRequest (lit "GET") (SearchOp.url .repositories query opt) none = .error e →
        (SearchService.Repositories c mimePreview query opt).ret = (some {}, none, some e)) ∧
      (∀ e, c.NewRequest (lit "GET") (SearchOp.url .issues query opt) none = .error e →
        (SearchService.Issues c mimePreview query opt).ret = (some {}, none, some e)) ∧
      (∀ e, c.NewRequest (lit "GET") (SearchOp.url .users query opt) none = .error e →
        (SearchService.Users c mimePreview query opt).ret = (some {}, none, some e)) ∧
      (∀ e, c.NewRequest (lit "GET") (SearchOp.url .code query opt) none = .error e →
        (SearchService.Code c mimePreview query opt).ret = (some {}, none, some e))) ∧
    (∀ query opt req,
      (c.NewRequest (lit "GET") (SearchOp.url .repositories query opt) none = .ok req →
        (SearchService.Repositories c mimePreview query opt).ret.1
          = some (c.Do { req with Header := Values.Add req.Header (lit "Accept") mimePreview }
              .repositoriesSearch {}).dest) ∧
      (c.NewRequest (lit "GET") (SearchOp.url .issues query opt) none = .ok req →
        (SearchService.Issues c mimePreview query opt).ret.1
          = some (c.Do { req with Header := Values.Add req.Header (lit "Accept") mimePreview }
              .issuesSearch {}).dest) ∧
      (c.NewRequest (lit "GET") (SearchOp.url .users query opt) none = .ok req →
        (SearchService.Users c mimePreview query opt).ret.1
          = some (c.Do { req with Header := Values.Add req.Header (lit "Accept") mimePreview }
              .usersSearch {}).dest) ∧
      (c.NewRequest (lit "GET") (SearchOp.url .code query opt) none = .ok req →
        (SearchService.Code c mimePreview query opt).ret.1
          = some (c.Do { req with Header := Values.Add req.Header (lit "Accept") mimePreview }
              .codeSearch {}).dest)) := by
  refine ⟨?_, ?_, ?_, ?_, ?_, ?_⟩
  · intro user
    by_cases hu : user = []
    · subst hu
      constructor
      · intro e h
        simp only [if_true] at h
        simp [UsersService.Get, h]
      · intro req h
        simp only [if_true] at h
        simp [UsersService.Get, h]
    · constructor
      · intro e h
        simp only [hu, if_false] at h
        simp [UsersService.Get, hu, h]
      · intro req h
        simp only [hu, if_false] at h
        simp [UsersService.Get, hu, h]
  · intro user
    constructor
    · intro e h
      simp [UsersService.Edit, h]
    · intro req h
      simp [UsersService.Edit, h]
  · intro opt u hb
    dsimp only [UsersService.ListAll] at hb ⊢
    constructor
    · intro e h
      split at hb <;> simp_all [built]
    · intro req h
      split at hb <;> simp_all [built]
  · intro user u hb
    dsimp only [UsersService.ListFollowers] at hb ⊢
    constructor
    · intro e h
      split at hb <;> simp_all [built]
    · intro req h
      split at hb <;> simp_all [built]
  · intro query opt
    refine ⟨?_, ?_, ?_, ?_⟩ <;>
    · intro e h
      simp only [SearchOp.url, SearchOp.discriminator] at h
      simp only [SearchService.Repositories, SearchService.Issues, SearchService.Users,
        SearchService.Code, search_ret_of_error _ _ _ _ _ _ _ e h]
  · intro query opt req
    refine ⟨?_, ?_, ?_, ?_⟩ <;>
    · intro h
      simp only [SearchOp.url, SearchOp.discriminator] at h
      simp only [SearchService.Repositories, SearchService.Issues, SearchService.Users,
        SearchService.Code, search_ret_of_ok _ _ _ _ _ _ _ req h]

/-- Run of the amended C11: `Get` of the identifier `%` (the request is not built) returns
nil; `Get` against a server answering 500, which leaves the destination as it was, returns
an empty `User`; `Repositories` against the same server returns an empty result. -/
theorem value_returned_on_error_witness :
    (UsersService.Get (testClient 200 bodyUserOne) (lit "%")).ret
      = (none, none, some (.urlError (lit "parse") (lit "users/%") (lit "invalid URL escape"))) ∧
    (UsersService.Get (testClient 500 bodyUserOne) []).ret
      = (some {}, some ⟨500⟩, some (.errorResponse 500 [])) ∧
    (SearchService.Repositories (testClient 500 noBody) (lit "application/vnd.github.preview")
        (lit "blah") none).ret.1 = some {} :=
  ⟨((value_returned_on_error (testClient 200 bodyUserOne)
        (lit "application/vnd.github.preview")).1 (lit "%")).1
      (.urlError (lit "parse") (lit "users/%") (lit "invalid URL escape")) rfl,
   ((value_returned_on_error (testClient 500 bodyUserOne)
        (lit "application/vnd.github.preview")).1 []).2
      ⟨lit "GET", lit "user", [], none⟩ rfl,
   ((value_returned_on_error (testClient 500 noBody)
        (lit "application/vnd.github.preview")).2.2.2.2.2 (lit "blah") none
      ⟨lit "GET", lit "search/repositories?q=blah", [], none⟩).1 rfl⟩

/-! ## Lemmas: the calendar and the digits of `time` -/

theorem coerceFrom_of_valid (s : GoString) :
    ∀ k, validFrom k s = true → coerceFrom k s = s := by
  induction s with
  | nil => intro k _; cases k <;> rfl
  | cons b rest ih =>
    intro k h
    cases k with
    | succ k =>
      simp only [validFrom] at h
      simp only [coerceFrom, ih k h]
    | zero =>
      simp only [validFrom] at h
      simp only [coerceFrom]
      cases hw : runeWidth (b :: rest) with
      | none => simp [hw] at h
      | some n =>
        simp only [hw] at h
        simp only [ih (n - 1) h]

/-- The coercion of `encoding/json` leaves valid UTF-8 as it is. -/
theorem toValidUTF8_of_valid (s : GoString) (h : ValidString s = true) : toValidUTF8 s = s :=
  coerceFrom_of_valid s 0 h

theorem string_comes_back (o : Option GoString) (h : ∀ s, o = some s → ValidString s = true) :
    (o.map fun s => toValidUTF8 (toValidUTF8 s)) = o := by
  cases o with
  | none => rfl
  | some s =>
    have hs := toValidUTF8_of_valid s (h s rfl)
    simp [hs]


end GoGithub
